import Mathlib

/-!
Shallow embedding of the Video_API repository's job-lifecycle core:
the processing lock (`src/middleware/processing_lock.py`), the job
registry and background processor (`src/core/processor.py`), the storage
helpers (`src/core/storage.py`) and the endpoint-level delete operation
(`src/api/endpoints.py`).  Wall-clock times are modelled as natural
numbers supplied by the environment; filesystem and external-process
effects are modelled by explicit state passing.
-/

set_option maxHeartbeats 1000000

/-! ## Processing lock (`src/middleware/processing_lock.py`) -/

/-- State of the global `ProcessingLock` instance: the `asyncio.Lock`'s
locked flag together with the `_current_job_id`, `_processing_start_time`
and `_is_processing` fields. -/
structure LockState where
  locked : Bool
  current_job_id : Option String
  processing_start_time : Option Nat
  is_processing : Bool
deriving DecidableEq, Repr

namespace ProcessingLock

/-- The lock state produced by `ProcessingLock.__init__`. -/
def init : LockState :=
  { locked := false, current_job_id := none, processing_start_time := none,
    is_processing := false }

/-- `ProcessingLock.acquire(job_id)` (processing_lock.py lines 14-26): if
the lock is already locked the call returns `False` and changes nothing;
otherwise it takes the lock, records the job id and the current time, sets
the processing flag and returns `True`.  `now` stands for `datetime.now()`
at the moment of the call. -/
def acquire (s : LockState) (jobId : String) (now : Nat) : Bool × LockState :=
  if s.locked then (false, s)
  else (true,
    { locked := true, current_job_id := some jobId,
      processing_start_time := some now, is_processing := true })

/-- `ProcessingLock.release()` (processing_lock.py lines 28-34): if the
lock is held, clear the job id, start time and processing flag and unlock;
otherwise do nothing. -/
def release (s : LockState) : LockState :=
  if s.locked then
    { locked := false, current_job_id := none, processing_start_time := none,
      is_processing := false }
  else s

/-- `ProcessingLock.is_locked()` (processing_lock.py lines 36-38). -/
def is_locked (s : LockState) : Bool := s.locked

/-- `ProcessingLock.get_current_job()` (processing_lock.py lines 40-42). -/
def get_current_job (s : LockState) : Option String := s.current_job_id

end ProcessingLock

/-- Well-formedness of a lock state: when unlocked, the holder and the
acquisition time are cleared.  This holds of the initial state and is
preserved by `acquire` and `release`. -/
def LockWF (s : LockState) : Prop :=
  s.locked = false → s.current_job_id = none ∧ s.processing_start_time = none

instance (s : LockState) : Decidable (LockWF s) := by
  unfold LockWF; infer_instance

theorem lockWF_init : LockWF ProcessingLock.init := by
  intro h; exact ⟨rfl, rfl⟩

theorem lockWF_acquire (s : LockState) (jobId : String) (now : Nat)
    (h : LockWF s) : LockWF (ProcessingLock.acquire s jobId now).2 := by
  unfold ProcessingLock.acquire
  by_cases hl : s.locked
  · simpa [hl] using h
  · simp [hl, LockWF]

theorem lockWF_release (s : LockState) (h : LockWF s) :
    LockWF (ProcessingLock.release s) := by
  unfold ProcessingLock.release
  by_cases hl : s.locked
  · simp [hl, LockWF]
  · simpa [hl] using h

/-! ## Job records and the in-memory registry (`src/core/processor.py`) -/

/-- The status strings stored in a job record by `VideoProcessor`. -/
inductive JobStatus where
  | created
  | validating
  | validated
  | processing
  | completed
  | failed
  | rejected
deriving DecidableEq, Repr

/-- A job status is terminal when no further transition leaves it. -/
def isTerminal : JobStatus → Bool
  | .completed => true
  | .failed => true
  | .rejected => true
  | _ => false

/-- The metadata dictionary returned by
`VideoValidator.full_video_validation` (validation.py lines 71-78);
only threaded through into `file_info`, never inspected by the
processor, so modelled by its numeric fields. -/
structure VideoInfo where
  duration : Nat
  width : Nat
  height : Nat
deriving DecidableEq, Repr

/-- One entry of `VideoProcessor.jobs` (processor.py lines 31-43). -/
structure JobRec where
  id : String
  original_filename : String
  upload_filename : String
  output_filename : Option String
  status : JobStatus
  progress : Nat
  created_at : Nat
  started_at : Option Nat
  completed_at : Option Nat
  error : Option String
  file_info : Option VideoInfo
  output_size : Option Nat
deriving DecidableEq, Repr

/-- The registry `VideoProcessor.jobs`, a dictionary keyed by job id,
modelled as an association list. -/
abbrev Jobs := List (String × JobRec)

/-- `self.jobs.get(job_id)` / `VideoProcessor.get_job_status`. -/
def getJob (jobs : Jobs) (jobId : String) : Option JobRec :=
  (jobs.find? (fun p => p.1 == jobId)).map (fun p => p.2)

/-- `VideoProcessor.create_job` (processor.py lines 27-45): the fresh
record inserted for a new job.  `jobId` stands for the generated
`uuid4` token and `t` for `datetime.now()`. -/
def create_job_record (jobId orig upname : String) (t : Nat) : JobRec :=
  { id := jobId, original_filename := orig, upload_filename := upname,
    output_filename := none, status := .created, progress := 0,
    created_at := t, started_at := none, completed_at := none,
    error := none, file_info := none, output_size := none }

/-- `VideoProcessor.update_job_status` (processor.py lines 51-55): if the
job exists, overwrite its status and merge the keyword updates `f`
(which never touch the status field); if the job does not exist, do
nothing. -/
def update_job_status (jobs : Jobs) (jobId : String) (st : JobStatus)
    (f : JobRec → JobRec) : Jobs :=
  jobs.map (fun p => if p.1 == jobId then (p.1, f { p.2 with status := st }) else p)

theorem getJob_update_self (jobs : Jobs) (jobId : String) (st : JobStatus)
    (f : JobRec → JobRec) :
    getJob (update_job_status jobs jobId st f) jobId =
      (getJob jobs jobId).map (fun r => f { r with status := st }) := by
  induction jobs with
  | nil => rfl
  | cons p rest ih =>
    by_cases h : p.1 == jobId
    · simp [getJob, update_job_status, List.find?, h]
    · simp only [update_job_status, List.map] at ih ⊢
      simp [getJob, List.find?, h] at ih ⊢
      exact ih

theorem getJob_update_ne (jobs : Jobs) (jobId other : String) (st : JobStatus)
    (f : JobRec → JobRec) (hne : other ≠ jobId) :
    getJob (update_job_status jobs jobId st f) other = getJob jobs other := by
  induction jobs with
  | nil => rfl
  | cons p rest ih =>
    by_cases h : p.1 == jobId
    · have hp : p.1 = jobId := by simpa using h
      have h2 : (p.1 == other) = false := by
        simp [hp]; exact fun hc => hne hc.symm
      simp [getJob, update_job_status, List.find?, h, h2] at ih ⊢
      exact ih
    · by_cases h3 : p.1 == other
      · simp [getJob, update_job_status, List.find?, h, h3]
      · simp [getJob, update_job_status, List.find?, h, h3] at ih ⊢
        exact ih

/-! ## Character-list string helpers

Kernel-evaluable stand-ins for the Python string operations the source
uses (`str.replace`, `str.startswith`-style glob matching, substring
glob matching, `Path(...).stem` and `.suffix`). -/

/-- Whether `p` is an initial segment of `s`. -/
def isHeadSeg : List Char → List Char → Bool
  | [], _ => true
  | _ :: _, [] => false
  | a :: ps, b :: ss => a == b && isHeadSeg ps ss

/-- Python `str.replace`: replace non-overlapping occurrences of `old`
left to right.  `fuel` bounds the recursion by the length of `s`. -/
def pyReplaceAux : Nat → List Char → List Char → List Char → List Char
  | 0, s, _, _ => s
  | fuel + 1, s, old, new =>
    match s with
    | [] => []
    | c :: rest =>
      if old ≠ [] && isHeadSeg old s then
        new ++ pyReplaceAux fuel (s.drop old.length) old new
      else
        c :: pyReplaceAux fuel rest old new

/-- Python `str.replace` on `String`s (for a non-empty pattern). -/
def pyReplace (s old new : String) : String :=
  String.mk (pyReplaceAux s.data.length s.data old.data new.data)

/-- Glob `"{j}*"`: `name` starts with `j`. -/
def nameStartsWith (j name : String) : Bool := isHeadSeg j.data name.data

/-- Glob `"*{j}*"`: `name` contains `j` as a substring. -/
def nameHasSub (j name : String) : Bool := go j.data name.data
where
  go (pat : List Char) : List Char → Bool
    | [] => isHeadSeg pat []
    | c :: rest => isHeadSeg pat (c :: rest) || go pat rest

/-- Index just after the last `'.'` in `cs`, when one occurs at a
positive position (pathlib treats a leading dot as part of the stem). -/
def lastDotSplit (cs : List Char) : Option Nat :=
  ((cs.enum.filter (fun p => p.2 == '.')).map (fun p => p.1)).getLast?

/-- `FileStorage.generate_output_filename` (storage.py lines 22-28):
`f"{stem}_speedup{suffix}"` for `Path(input_filename)`, where `stem` and
`suffix` split the name at its last dot (a dot at position 0 yields an
empty suffix, as in pathlib). -/
def generate_output_filename (input_filename : String) : String :=
  let cs := input_filename.data
  match lastDotSplit cs with
  | some i =>
    if i = 0 then input_filename ++ "_speedup"
    else String.mk (cs.take i) ++ "_speedup" ++ String.mk (cs.drop i)
  | none => input_filename ++ "_speedup"

/-- `FileStorage.generate_unique_filename` (storage.py lines 15-28):
`f"{unique_id}_{file_path.name}"` where `unique_id` is a fresh
`uuid4()[:8]` token (supplied here as `uid`), unrelated to any job id. -/
def generate_unique_filename (uid original_filename : String) : String :=
  uid ++ "_" ++ original_filename

/-! ## Flat filesystem model for the transcode pipeline -/

/-- The set of existing paths, as seen by `os.path.exists` / `os.remove`
inside `run_ffmpeg_commands`. -/
abbrev FS := List String

/-- `os.path.exists`. -/
def FS.hasPath (fs : FS) (p : String) : Bool := fs.contains p

/-- File creation by an external command (set semantics). -/
def FS.create (fs : FS) (p : String) : FS :=
  if fs.contains p then fs else p :: fs

/-- `os.remove`. -/
def FS.removePath (fs : FS) (p : String) : FS := fs.filter (fun q => q ≠ p)

/-! ## The three-stage ffmpeg run (`src/core/processor.py` lines 230-261) -/

/-- Observed behaviour of one `subprocess.run` invocation of ffmpeg:
its captured stdout/stderr, its exit code, and whether it left its
output file on disk. -/
structure StageRes where
  stdout : String
  stderr : String
  returncode : Int
  creates_output : Bool
deriving DecidableEq, Repr

/-- Environment for one run of `run_ffmpeg_commands`: the behaviour of
the three staged ffmpeg invocations.  `.error e` means the invocation
itself raised a Python exception with message `e` (before producing a
file); `.ok r` means it ran and exited with `r.returncode`. -/
structure FfmpegRunEnv where
  stage1 : Except String StageRes
  stage2 : Except String StageRes
  stage3 : Except String StageRes
deriving Repr

/-- The temp-file cleanup block duplicated at processor.py lines 245-250
and 255-260: remove `tempP` and `blackP` when present. -/
def cleanup_temp (fs : FS) (tempP blackP : String) : FS :=
  let fs1 := if fs.hasPath tempP then fs.removePath tempP else fs
  if fs1.hasPath blackP then fs1.removePath blackP else fs1

/-- `run_ffmpeg_commands` (processor.py lines 230-261).  Runs the three
staged commands in order; a non-zero exit returns
`(None, "Step N failed: " ++ stderr, returncode)` immediately — without
reaching the cleanup block; only the all-success path and the
exception handler remove the two temp files.  Returns the final
filesystem and the `(stdout, stderr, returncode)` triple. -/
def run_ffmpeg_commands (fs : FS) (tempP blackP outP : String)
    (env : FfmpegRunEnv) : FS × (Option String × String × Int) :=
  match env.stage1 with
  | .error e => (cleanup_temp fs tempP blackP, (none, e, 1))
  | .ok r1 =>
    let fs1 := if r1.creates_output then fs.create tempP else fs
    if r1.returncode ≠ 0 then
      (fs1, (none, "Step 1 failed: " ++ r1.stderr, r1.returncode))
    else
      match env.stage2 with
      | .error e => (cleanup_temp fs1 tempP blackP, (none, e, 1))
      | .ok r2 =>
        let fs2 := if r2.creates_output then fs1.create blackP else fs1
        if r2.returncode ≠ 0 then
          (fs2, (none, "Step 2 failed: " ++ r2.stderr, r2.returncode))
        else
          match env.stage3 with
          | .error e => (cleanup_temp fs2 tempP blackP, (none, e, 1))
          | .ok r3 =>
            let fs3 := if r3.creates_output then fs2.create outP else fs2
            if r3.returncode ≠ 0 then
              (fs3, (none, "Step 3 failed: " ++ r3.stderr, r3.returncode))
            else
              (cleanup_temp fs3 tempP blackP, (some r3.stdout, r3.stderr, 0))

/-! ## `_process_with_ffmpeg` (`src/core/processor.py` lines 121-283) -/

/-- Environment for one call of `_process_with_ffmpeg`: the outcome of
the initial ffprobe invocation and metadata parse (`.error` covers a
non-zero probe exit, a missing video stream, and parse failures, with
the raised message), the behaviour of the three staged commands, and
whether `asyncio.wait_for` hit `config.FFMPEG_TIMEOUT`.  Exiting the
`ThreadPoolExecutor` block waits for the worker thread, so even on a
timeout the filesystem reflects the completed command sequence while
the result triple is discarded. -/
structure FfmpegEnv where
  probe : Except String Unit
  run : FfmpegRunEnv
  timeout : Bool
deriving Repr

/-- `_process_with_ffmpeg` (processor.py lines 121-283).  All failures
are re-raised as `Exception("FFmpeg processing error: " ++ msg)`.
On the success path it records `progress=40` before and `progress=90`
after the staged run.  Returns the updated registry, the trace of
registry snapshots taken after each of its `update_job_status` calls,
the updated filesystem and the outcome. -/
def process_with_ffmpeg (jobs : Jobs) (fs : FS) (jobId : String)
    (outputPath : String) (env : FfmpegEnv) :
    Jobs × List Jobs × FS × Except String Unit :=
  let tempP := pyReplace outputPath ".mp4" "_temp.mp4"
  let blackP := pyReplace outputPath ".mp4" "_black.mp4"
  match env.probe with
  | .error e => (jobs, [], fs, .error ("FFmpeg processing error: " ++ e))
  | .ok _ =>
    let jobs1 := update_job_status jobs jobId .processing
      (fun r => { r with progress := 40 })
    let res := run_ffmpeg_commands fs tempP blackP outputPath env.run
    let fs1 := res.1
    if env.timeout then
      (jobs1, [jobs1], fs1,
        .error "FFmpeg processing error: Video processing timed out")
    else
      let rc := res.2.2.2
      let stderr := res.2.2.1
      if rc ≠ 0 then
        let msg := if stderr = "" then "Unknown FFmpeg error" else stderr
        (jobs1, [jobs1], fs1,
          .error ("FFmpeg processing error: FFmpeg failed: " ++ msg))
      else
        let jobs2 := update_job_status jobs1 jobId .processing
          (fun r => { r with progress := 90 })
        (jobs2, [jobs1, jobs2], fs1, .ok ())

/-! ## `process_video` (`src/core/processor.py` lines 57-119) -/

/-- A Python exception escaping `full_video_validation`: either a
`fastapi.HTTPException` (the validator's own rejections, all status 400)
or any other exception with its message. -/
inductive PyExc where
  | http (code : Nat) (detail : String)
  | other (msg : String)
deriving DecidableEq, Repr

/-- Environment for one run of `process_video`: timestamps taken by the
successive `datetime.now()` calls, the outcome of the background
re-validation, the ffmpeg environment, and the `stat().st_size` reported
for the finished output file. -/
structure PvEnv where
  t_acquire : Nat
  t_start : Nat
  t_complete : Nat
  validation : Except PyExc VideoInfo
  ffmpeg : FfmpegEnv
  output_size : Nat
deriving Repr

/-- Outcome of `process_video`: the returned job dictionary, or the
`HTTPException` that escaped. -/
inductive PvResult where
  | ok (job : Option JobRec)
  | http (code : Nat) (detail : String)
deriving DecidableEq, Repr

/-- Result record of a `process_video` run: the trace of registry
snapshots (the initial registry, then one snapshot after every
`update_job_status` call, in program order), the final registry, lock
and filesystem, the outcome, and whether `_process_with_ffmpeg` was
invoked. -/
structure PvOut where
  trace : List Jobs
  jobs : Jobs
  lock : LockState
  fs : FS
  result : PvResult
  pipeline_ran : Bool
deriving Repr

/-- `VideoProcessor.process_video` (processor.py lines 57-119), one
sequential run.  Mirrors the source control flow: missing job raises
404 before anything else; the lock is acquired right away, and a failed
acquisition marks the job `rejected` and raises 429; the inner
`finally` always releases the lock; an `HTTPException` from the inner
block is re-raised unchanged by `except HTTPException`, while any other
exception marks the job `failed` (error message, `progress=0`) and is
re-raised as a 500. -/
def process_video (jobs : Jobs) (lock : LockState) (fs : FS)
    (jobId : String) (env : PvEnv) : PvOut :=
  match getJob jobs jobId with
  | none =>
    { trace := [jobs], jobs := jobs, lock := lock, fs := fs,
      result := .http 404 "Job not found", pipeline_ran := false }
  | some job =>
    match ProcessingLock.acquire lock jobId env.t_acquire with
    | (false, lock1) =>
      let jobs1 := update_job_status jobs jobId .rejected
        (fun r => { r with error := some "Another video is currently being processed" })
      { trace := [jobs, jobs1], jobs := jobs1, lock := lock1, fs := fs,
        result := .http 429 "Server busy. Another video is being processed.",
        pipeline_ran := false }
    | (true, lock1) =>
      let jobs1 := update_job_status jobs jobId .validating
        (fun r => { r with started_at := some env.t_start })
      match env.validation with
      | .error (.http code detail) =>
        { trace := [jobs, jobs1], jobs := jobs1,
          lock := ProcessingLock.release lock1, fs := fs,
          result := .http code detail, pipeline_ran := false }
      | .error (.other msg) =>
        let lock2 := ProcessingLock.release lock1
        let jobs2 := update_job_status jobs1 jobId .failed
          (fun r => { r with error := some msg, progress := 0 })
        { trace := [jobs, jobs1, jobs2], jobs := jobs2, lock := lock2, fs := fs,
          result := .http 500 ("Processing failed: " ++ msg), pipeline_ran := false }
      | .ok info =>
        let jobs2 := update_job_status jobs1 jobId .validated
          (fun r => { r with file_info := some info, progress := 20 })
        let outName := generate_output_filename job.upload_filename
        let jobs3 := update_job_status jobs2 jobId .processing
          (fun r => { r with output_filename := some outName, progress := 30 })
        match process_with_ffmpeg jobs3 fs jobId outName env.ffmpeg with
        | (jobs4, fftrace, fs1, .error msg) =>
          let lock2 := ProcessingLock.release lock1
          let jobs5 := update_job_status jobs4 jobId .failed
            (fun r => { r with error := some msg, progress := 0 })
          { trace := [jobs, jobs1, jobs2, jobs3] ++ fftrace ++ [jobs5],
            jobs := jobs5, lock := lock2, fs := fs1,
            result := .http 500 ("Processing failed: " ++ msg),
            pipeline_ran := true }
        | (jobs4, fftrace, fs1, .ok _) =>
          if fs1.hasPath outName then
            let jobs5 := update_job_status jobs4 jobId .completed
              (fun r => { r with progress := 100,
                                 completed_at := some env.t_complete,
                                 output_size := some env.output_size })
            { trace := [jobs, jobs1, jobs2, jobs3] ++ fftrace ++ [jobs5],
              jobs := jobs5, lock := ProcessingLock.release lock1, fs := fs1,
              result := .ok (getJob jobs5 jobId), pipeline_ran := true }
          else
            let lock2 := ProcessingLock.release lock1
            let jobs5 := update_job_status jobs4 jobId .failed
              (fun r => { r with error := some "Output file was not created",
                                 progress := 0 })
            { trace := [jobs, jobs1, jobs2, jobs3] ++ fftrace ++ [jobs5],
              jobs := jobs5, lock := lock2, fs := fs1,
              result := .http 500 "Processing failed: Output file was not created",
              pipeline_ran := true }

/-! ## Claim theorems: the lock primitive -/

/-- Concrete held lock state (held by "j1" since time 5). -/
def heldLock : LockState :=
  { locked := true, current_job_id := some "j1",
    processing_start_time := some 5, is_processing := true }

/-- Claim C1: `tryAcquire(jobId)` on a held slot returns false and leaves
the holder, acquisition timestamp and held state unchanged; on an unheld
slot it returns true, the slot becomes held, the holder becomes `jobId`
and the acquisition time is recorded. -/
theorem C1_tryAcquire (s : LockState) (jobId : String) (now : Nat) :
    (s.locked = true → ProcessingLock.acquire s jobId now = (false, s)) ∧
    (s.locked = false →
      (ProcessingLock.acquire s jobId now).1 = true ∧
      (ProcessingLock.acquire s jobId now).2.locked = true ∧
      (ProcessingLock.acquire s jobId now).2.current_job_id = some jobId ∧
      (ProcessingLock.acquire s jobId now).2.processing_start_time = some now ∧
      (ProcessingLock.acquire s jobId now).2.is_processing = true) := by
  unfold ProcessingLock.acquire
  constructor
  · intro h; simp [h]
  · intro h; simp [h]

/-- Witness for C1 at concrete lock states. -/
theorem C1_tryAcquire_witness :
    ProcessingLock.acquire heldLock "j2" 7 = (false, heldLock) ∧
    (ProcessingLock.acquire ProcessingLock.init "j2" 7).1 = true ∧
    (ProcessingLock.acquire ProcessingLock.init "j2" 7).2.current_job_id = some "j2" ∧
    (ProcessingLock.acquire ProcessingLock.init "j2" 7).2.processing_start_time = some 7 := by
  refine ⟨(C1_tryAcquire heldLock "j2" 7).1 rfl, ?_, ?_, ?_⟩
  · exact ((C1_tryAcquire ProcessingLock.init "j2" 7).2 rfl).1
  · exact ((C1_tryAcquire ProcessingLock.init "j2" 7).2 rfl).2.2.1
  · exact ((C1_tryAcquire ProcessingLock.init "j2" 7).2 rfl).2.2.2.1

/-- Claim C9: `release` is idempotent: after any call to `release` (on a
well-formed lock state) the slot is unheld with a null holder and a null
acquisition time, and releasing again is a no-op that leaves the slot
unheld. -/
theorem C9_release_idempotent (s : LockState) (h : LockWF s) :
    (ProcessingLock.release s).locked = false ∧
    (ProcessingLock.release s).current_job_id = none ∧
    (ProcessingLock.release s).processing_start_time = none ∧
    ProcessingLock.release (ProcessingLock.release s) = ProcessingLock.release s := by
  unfold ProcessingLock.release
  by_cases hl : s.locked
  · simp [hl]
  · have hs := h (by simpa using hl)
    simp [hl, hs.1, hs.2]

/-- Witness for C9: releasing a held slot and the never-held slot. -/
theorem C9_release_idempotent_witness :
    ((ProcessingLock.release heldLock).locked = false ∧
      (ProcessingLock.release heldLock).current_job_id = none) ∧
    ((ProcessingLock.release ProcessingLock.init).locked = false ∧
      ProcessingLock.release (ProcessingLock.release ProcessingLock.init) =
        ProcessingLock.release ProcessingLock.init) := by
  have h1 := C9_release_idempotent heldLock (by intro h; cases h)
  have h2 := C9_release_idempotent ProcessingLock.init (by intro _; exact ⟨rfl, rfl⟩)
  exact ⟨⟨h1.1, h1.2.1⟩, ⟨h2.1, h2.2.2.2⟩⟩

/-! ## Claim theorems: lock release around the pipeline (C2) -/

theorem release_locked_false (s : LockState) :
    (ProcessingLock.release s).locked = false := by
  unfold ProcessingLock.release
  by_cases hl : s.locked
  · simp [hl]
  · simp only [hl, if_false]
    simpa using hl

/-- Claim C2: for every run of the background processing routine that
starts with the slot unheld (so that acquisition, when reached,
succeeds), the slot is unheld again once the routine returns or raises,
in the completed outcome and in every failure outcome. -/
theorem C2_slot_released (jobs : Jobs) (lock : LockState) (fs : FS)
    (jobId : String) (env : PvEnv) (h : lock.locked = false) :
    (process_video jobs lock fs jobId env).lock.locked = false := by
  unfold process_video
  split
  · exact h
  · split
    · next lock1 heq =>
      exfalso
      rw [ProcessingLock.acquire, if_neg (by simp [h])] at heq
      simp at heq
    · next lock1 heq =>
      split
      · exact release_locked_false _
      · exact release_locked_false _
      · dsimp only
        split
        · exact release_locked_false _
        · split
          · exact release_locked_false _
          · exact release_locked_false _

/-- Shared demo environment: every external step succeeds. -/
def demoOkEnv : PvEnv :=
  { t_acquire := 1, t_start := 2, t_complete := 9,
    validation := .ok ⟨10, 640, 360⟩,
    ffmpeg := { probe := .ok (), timeout := false,
                run := { stage1 := .ok ⟨"", "", 0, true⟩,
                         stage2 := .ok ⟨"", "", 0, true⟩,
                         stage3 := .ok ⟨"ok", "", 0, true⟩ } },
    output_size := 777 }

/-- Shared demo registry holding one fresh job "j1". -/
def demoJobs : Jobs := [("j1", create_job_record "j1" "v.mp4" "u_v.mp4" 0)]

/-- Witness for C2: a concrete successful run ends with the slot unheld. -/
theorem C2_slot_released_witness :
    (process_video demoJobs ProcessingLock.init [] "j1" demoOkEnv).lock.locked = false :=
  C2_slot_released demoJobs ProcessingLock.init [] "j1" demoOkEnv rfl

/-! ## Claim theorems: when the lock is acquired (C3) -/

/-- Counterexample to claim C3 as stated: with the slot held by another
job, `process_video` runs on a fresh job whose record is still `created`
with no output filename and `progress = 0`; acquisition is attempted
(and fails, the record becoming `rejected`) even though the job never
reached `validated`, never got an output filename and never had
`progress = 30` — no snapshot in the whole run has status `validated`
or `processing`, and the pipeline never runs. -/
theorem C3_lock_first_counterexample :
    (let out := process_video demoJobs heldLock [] "j1" demoOkEnv
     ((getJob out.jobs "j1").map (fun r => (r.status, r.output_filename, r.progress)) =
        some (.rejected, none, 0)) ∧
     out.pipeline_ran = false ∧
     out.trace.all (fun js =>
       ((getJob js "j1").map (fun r => decide (r.status = .created ∨ r.status = .rejected))).getD false) = true) := by
  decide

/-- Claim C3, amended: slot acquisition is attempted at the very start of
background processing — before re-validation, before any output filename
is assigned and before any progress update; when it fails, the only
change to the job's record is that it becomes `rejected` with an
explanatory error (output filename and progress keep their prior
values), the HTTP outcome is 429, the lock and the filesystem are
untouched, and the transcode pipeline is never run. -/
theorem C3_rejected_before_validation (jobs : Jobs) (lock : LockState)
    (fs : FS) (jobId : String) (env : PvEnv) (job : JobRec)
    (hj : getJob jobs jobId = some job) (hl : lock.locked = true) :
    (let out := process_video jobs lock fs jobId env
     getJob out.jobs jobId =
        some { job with status := .rejected,
                        error := some "Another video is currently being processed" } ∧
     out.pipeline_ran = false ∧
     out.lock = lock ∧
     out.fs = fs ∧
     out.result = .http 429 "Server busy. Another video is being processed.") := by
  unfold process_video
  rw [hj]
  rw [ProcessingLock.acquire, if_pos hl]
  refine ⟨?_, rfl, rfl, rfl, rfl⟩
  rw [getJob_update_self, hj]
  rfl

/-- Witness for C3's amended theorem at a concrete held-lock state. -/
theorem C3_rejected_before_validation_witness :
    (let out := process_video demoJobs heldLock [] "j1" demoOkEnv
     getJob out.jobs "j1" =
        some { create_job_record "j1" "v.mp4" "u_v.mp4" 0 with
                 status := .rejected,
                 error := some "Another video is currently being processed" } ∧
     out.pipeline_ran = false ∧
     out.lock = heldLock ∧
     out.fs = [] ∧
     out.result = .http 429 "Server busy. Another video is being processed.") :=
  C3_rejected_before_validation demoJobs heldLock [] "j1" demoOkEnv
    (create_job_record "j1" "v.mp4" "u_v.mp4" 0) rfl rfl

/-! ## Claim theorems: exception handling in the background run (C4) -/

/-- Environment whose background re-validation raises an
`HTTPException` (as every rejection in `full_video_validation` does). -/
def valHttpEnv : PvEnv :=
  { demoOkEnv with validation := .error (.http 400 "File not found") }

/-- Environment whose background re-validation raises a plain (non-HTTP)
exception. -/
def valExcEnv : PvEnv :=
  { demoOkEnv with validation := .error (.other "boom") }

/-- Counterexample to claim C4 as stated: an exception during background
re-validation (an `HTTPException`, which is what the validator raises)
does NOT transition the job to `failed` — the `except HTTPException`
clause re-raises it before the catch-all handler runs, so the record
stays `validating` with no error recorded. -/
theorem C4_validation_exception_counterexample :
    (let out := process_video demoJobs ProcessingLock.init [] "j1" valHttpEnv
     ((getJob out.jobs "j1").map (fun r => (r.status, r.error, r.progress)) =
        some (.validating, none, 0)) ∧
     out.result = .http 400 "File not found") := by
  decide

theorem pwf_preserves_mem (jobs : Jobs) (fs : FS) (jobId p : String)
    (env : FfmpegEnv) (h : (getJob jobs jobId).isSome = true) :
    (getJob (process_with_ffmpeg jobs fs jobId p env).1 jobId).isSome = true := by
  obtain ⟨r, hr⟩ := Option.isSome_iff_exists.mp h
  unfold process_with_ffmpeg
  split
  · simpa using h
  · dsimp only
    split
    · rw [getJob_update_self, hr]; rfl
    · split
      · rw [getJob_update_self, hr]; rfl
      · rw [getJob_update_self, getJob_update_self, hr]; rfl

/-- Claim C4, amended: any exception during pipeline execution, and any
non-HTTP exception during background re-validation, transitions the job
to `failed` with `error` set to the failure detail and `progress` reset
to 0 (surfaced as a 500 whose detail prefixes the message with
"Processing failed: "); an HTTP-typed validation rejection, however, is
re-raised unchanged and leaves the record in `validating` with its error
field untouched.  The hypothesis `hv` records that the validator only
raises status-400 HTTP errors, as in `utils/validation.py`. -/
theorem C4_failed_on_exception (jobs : Jobs) (lock : LockState) (fs : FS)
    (jobId : String) (env : PvEnv) (job : JobRec)
    (hj : getJob jobs jobId = some job) (hl : lock.locked = false)
    (hv : ∀ c d, env.validation = .error (.http c d) → c = 400) :
    (let out := process_video jobs lock fs jobId env
     (∀ d, out.result = .http 500 d →
        ∃ msg, d = "Processing failed: " ++ msg ∧
          (getJob out.jobs jobId).map (fun r => (r.status, r.error, r.progress)) =
            some (.failed, some msg, 0)) ∧
     (∀ c d, env.validation = .error (.http c d) →
        (getJob out.jobs jobId).map (fun r => (r.status, r.error)) =
          some (.validating, job.error) ∧
        out.result = .http c d)) := by
  unfold process_video
  rw [hj]
  rw [ProcessingLock.acquire, if_neg (by simp [hl])]
  dsimp only
  split
  · next c0 d0 heqv =>
    constructor
    · intro d hd
      exfalso
      have hc := hv c0 d0 heqv
      simp only [PvResult.http.injEq] at hd
      omega
    · intro c d hcd
      rw [heqv] at hcd
      simp only [Except.error.injEq, PyExc.http.injEq] at hcd
      obtain ⟨hc, hd⟩ := hcd
      subst hc; subst hd
      refine ⟨?_, rfl⟩
      rw [getJob_update_self, hj]
      rfl
  · next msg heqv =>
    constructor
    · intro d hd
      simp only [PvResult.http.injEq] at hd
      refine ⟨msg, hd.2.symm, ?_⟩
      rw [getJob_update_self, getJob_update_self, hj]
      rfl
    · intro c d hcd
      rw [heqv] at hcd
      simp at hcd
  · next info heqv =>
    constructor
    · intro d
      split
      · next jobs4 fftrace fs1 msg heqp =>
        intro hd
        simp only [PvResult.http.injEq] at hd
        refine ⟨msg, hd.2.symm, ?_⟩
        have h4 : (getJob jobs4 jobId).isSome = true := by
          have h3 : (getJob (update_job_status
              (update_job_status
                (update_job_status jobs jobId .validating
                  (fun r => { r with started_at := some env.t_start }))
                jobId .validated
                (fun r => { r with file_info := some info, progress := 20 }))
              jobId .processing
              (fun r => { r with
                output_filename := some (generate_output_filename job.upload_filename),
                progress := 30 })) jobId).isSome = true := by
            rw [getJob_update_self, getJob_update_self, getJob_update_self, hj]
            rfl
          have := pwf_preserves_mem _ fs jobId
            (generate_output_filename job.upload_filename) env.ffmpeg h3
          rw [heqp] at this
          exact this
        obtain ⟨r4, hr4⟩ := Option.isSome_iff_exists.mp h4
        rw [getJob_update_self, hr4]
        rfl
      · next jobs4 fftrace fs1 u heqp =>
        intro hd
        revert hd
        split
        · intro hd
          cases hd
        · intro hd
          simp only [PvResult.http.injEq] at hd
          refine ⟨"Output file was not created", hd.2.symm, ?_⟩
          have h4 : (getJob jobs4 jobId).isSome = true := by
            have h3 : (getJob (update_job_status
                (update_job_status
                  (update_job_status jobs jobId .validating
                    (fun r => { r with started_at := some env.t_start }))
                  jobId .validated
                  (fun r => { r with file_info := some info, progress := 20 }))
                jobId .processing
                (fun r => { r with
                  output_filename := some (generate_output_filename job.upload_filename),
                  progress := 30 })) jobId).isSome = true := by
              rw [getJob_update_self, getJob_update_self, getJob_update_self, hj]
              rfl
            have := pwf_preserves_mem _ fs jobId
              (generate_output_filename job.upload_filename) env.ffmpeg h3
            rw [heqp] at this
            exact this
          obtain ⟨r4, hr4⟩ := Option.isSome_iff_exists.mp h4
          rw [getJob_update_self, hr4]
          rfl
    · intro c d hcd
      rw [heqv] at hcd
      simp at hcd

/-- Witness for C4's amended theorem: a concrete run whose
re-validation raises a plain exception ends with the record `failed`,
the error captured and progress 0. -/
theorem C4_failed_on_exception_witness :
    ∃ msg, "Processing failed: boom" = "Processing failed: " ++ msg ∧
      (getJob (process_video demoJobs ProcessingLock.init [] "j1" valExcEnv).jobs "j1").map
        (fun r => (r.status, r.error, r.progress)) = some (.failed, some msg, 0) := by
  have h := C4_failed_on_exception demoJobs ProcessingLock.init [] "j1" valExcEnv
    (create_job_record "j1" "v.mp4" "u_v.mp4" 0) rfl rfl
    (by intro c d hc; simp [valExcEnv, demoOkEnv] at hc)
  exact h.1 "Processing failed: boom" rfl

/-! ## Claim theorems: temp-file cleanup in the staged run (C5) -/

theorem hasPath_filter_ne (fs : FS) (p : String) :
    (fs.filter (fun q => q ≠ p)).contains p = false := by
  by_contra hc
  rw [Bool.not_eq_false] at hc
  obtain ⟨q, hq, hbeq⟩ := List.contains_iff_exists_mem_beq.mp hc
  have hne := List.of_mem_filter hq
  simp only [ne_eq, decide_eq_true_eq] at hne
  simp only [beq_iff_eq] at hbeq
  exact hne hbeq.symm

theorem hasPath_filter_of_not (fs : FS) (p : String) (f : String → Bool)
    (h : fs.contains p = false) : (fs.filter f).contains p = false := by
  by_contra hc
  rw [Bool.not_eq_false] at hc
  obtain ⟨q, hq, hbeq⟩ := List.contains_iff_exists_mem_beq.mp hc
  have hmem := List.mem_of_mem_filter hq
  have h2 : fs.contains p = true :=
    List.contains_iff_exists_mem_beq.mpr ⟨q, hmem, hbeq⟩
  rw [h] at h2
  cases h2

theorem bool_not_true {x : Bool} (h : ¬ x = true) : x = false := by
  cases x
  · rfl
  · exact absurd rfl h

theorem cleanup_temp_clears (fs : FS) (t b : String) :
    FS.hasPath (cleanup_temp fs t b) t = false ∧
    FS.hasPath (cleanup_temp fs t b) b = false := by
  unfold cleanup_temp
  by_cases ht : FS.hasPath fs t = true
  · rw [if_pos ht]
    by_cases hb : FS.hasPath (FS.removePath fs t) b = true
    · rw [if_pos hb]
      exact ⟨hasPath_filter_of_not _ _ _ (hasPath_filter_ne fs t),
             hasPath_filter_ne _ b⟩
    · rw [if_neg hb]
      exact ⟨hasPath_filter_ne fs t, bool_not_true hb⟩
  · rw [if_neg ht]
    by_cases hb : FS.hasPath fs b = true
    · rw [if_pos hb]
      refine ⟨?_, hasPath_filter_ne _ b⟩
      exact hasPath_filter_of_not _ _ _ (bool_not_true ht)
    · rw [if_neg hb]
      exact ⟨bool_not_true ht, bool_not_true hb⟩

/-- Counterexample to claim C5 as stated: when stage 1 exits non-zero
after writing its partial temp file, `run_ffmpeg_commands` returns early
and the speed-adjusted intermediate is NOT removed — cleanup only runs
on the all-success path or in the exception handler. -/
theorem C5_stage_failure_leaves_temp_counterexample :
    (let env : FfmpegRunEnv :=
       { stage1 := .ok ⟨"", "boom", 1, true⟩,
         stage2 := .ok ⟨"", "", 0, true⟩,
         stage3 := .ok ⟨"", "", 0, true⟩ }
     let res := run_ffmpeg_commands [] "out_temp.mp4" "out_black.mp4" "out.mp4" env
     res.1.contains "out_temp.mp4" = true ∧
     res.2.2.2 = 1 ∧
     res.2.2.1 = "Step 1 failed: boom") := by
  decide

/-- Claim C5, amended: the two temp files are removed when all three
stages exit zero, and whenever an exception is raised during the staged
run; but when a stage exits non-zero the early return skips the cleanup
block, so partial temp artifacts may remain.  (The overall timeout does
not interrupt the worker: leaving the executor block waits for the
command sequence, so the on-disk outcome is that of the completed
sequence.) -/
theorem C5_cleanup_on_success_or_exception (fs0 : FS)
    (tempP blackP outP : String) (env : FfmpegRunEnv) :
    (let res := run_ffmpeg_commands fs0 tempP blackP outP env
     (res.2.2.2 = 0 →
        FS.hasPath res.1 tempP = false ∧ FS.hasPath res.1 blackP = false) ∧
     (∀ e, env.stage1 = .error e →
        FS.hasPath res.1 tempP = false ∧ FS.hasPath res.1 blackP = false) ∧
     (∀ r1 e, env.stage1 = .ok r1 → r1.returncode = 0 → env.stage2 = .error e →
        FS.hasPath res.1 tempP = false ∧ FS.hasPath res.1 blackP = false) ∧
     (∀ r1 r2 e, env.stage1 = .ok r1 → r1.returncode = 0 → env.stage2 = .ok r2 →
        r2.returncode = 0 → env.stage3 = .error e →
        FS.hasPath res.1 tempP = false ∧ FS.hasPath res.1 blackP = false)) := by
  unfold run_ffmpeg_commands
  split
  · next e1 heq1 =>
    refine ⟨?_, ?_, ?_, ?_⟩
    · intro _
      exact cleanup_temp_clears _ _ _
    · intro _ _
      exact cleanup_temp_clears _ _ _
    · intro r1 e h1 _ _
      rw [heq1] at h1; cases h1
    · intro r1 r2 e h1 _ _ _ _
      rw [heq1] at h1; cases h1
  · next r1 heq1 =>
    dsimp only
    split
    · next hrc1 =>
      refine ⟨?_, ?_, ?_, ?_⟩
      · intro h0
        exact absurd h0 hrc1
      · intro e he
        rw [heq1] at he; cases he
      · intro r1b e h1 hrc _
        rw [heq1] at h1
        cases h1
        exact absurd hrc hrc1
      · intro r1b r2 e h1 hrc _ _ _
        rw [heq1] at h1
        cases h1
        exact absurd hrc hrc1
    · next hrc1 =>
      split
      · next e2 heq2 =>
        refine ⟨?_, ?_, ?_, ?_⟩
        · intro _
          exact cleanup_temp_clears _ _ _
        · intro e he
          rw [heq1] at he; cases he
        · intro _ _ _ _ _
          exact cleanup_temp_clears _ _ _
        · intro r1b r2 e h1 hrc h2 hrc2 h3
          rw [heq2] at h2; cases h2
      · next r2 heq2 =>
        split
        · next hrc2 =>
          refine ⟨?_, ?_, ?_, ?_⟩
          · intro h0
            exact absurd h0 hrc2
          · intro e he
            rw [heq1] at he; cases he
          · intro r1b e h1 hrc h2
            rw [heq2] at h2; cases h2
          · intro r1b r2b e h1 hrc h2 hrc2b h3
            rw [heq2] at h2
            cases h2
            exact absurd hrc2b hrc2
        · next hrc2 =>
          split
          · next e3 heq3 =>
            refine ⟨?_, ?_, ?_, ?_⟩
            · intro _
              exact cleanup_temp_clears _ _ _
            · intro e he
              rw [heq1] at he; cases he
            · intro r1b e h1 hrc h2
              rw [heq2] at h2; cases h2
            · intro _ _ _ _ _ _ _ _
              exact cleanup_temp_clears _ _ _
          · next r3 heq3 =>
            split
            · next hrc3 =>
              refine ⟨?_, ?_, ?_, ?_⟩
              · intro h0
                exact absurd h0 hrc3
              · intro e he
                rw [heq1] at he; cases he
              · intro r1b e h1 hrc h2
                rw [heq2] at h2; cases h2
              · intro r1b r2b e h1 hrc h2 hrc2b h3
                rw [heq3] at h3; cases h3
            · next hrc3 =>
              refine ⟨?_, ?_, ?_, ?_⟩
              · intro _
                exact cleanup_temp_clears _ _ _
              · intro e he
                rw [heq1] at he; cases he
              · intro r1b e h1 hrc h2
                rw [heq2] at h2; cases h2
              · intro r1b r2b e h1 hrc h2 hrc2b h3
                rw [heq3] at h3; cases h3

/-- Witness for C5's amended theorem: a fully successful staged run on a
concrete filesystem removes both temp files. -/
theorem C5_cleanup_witness :
    (let env : FfmpegRunEnv :=
       { stage1 := .ok ⟨"", "", 0, true⟩,
         stage2 := .ok ⟨"", "", 0, true⟩,
         stage3 := .ok ⟨"", "", 0, true⟩ }
     let res := run_ffmpeg_commands [] "out_temp.mp4" "out_black.mp4" "out.mp4" env
     FS.hasPath res.1 "out_temp.mp4" = false ∧
     FS.hasPath res.1 "out_black.mp4" = false) :=
  (C5_cleanup_on_success_or_exception [] "out_temp.mp4" "out_black.mp4" "out.mp4"
      { stage1 := .ok ⟨"", "", 0, true⟩,
        stage2 := .ok ⟨"", "", 0, true⟩,
        stage3 := .ok ⟨"", "", 0, true⟩ }).1 rfl

/-! ## Claim theorems: progress monotonicity along a run (C7) -/

/-- The `(status, progress)` view of a job in one registry snapshot. -/
def job_view (jobs : Jobs) (jobId : String) : Option (JobStatus × Nat) :=
  (getJob jobs jobId).map (fun r => (r.status, r.progress))

/-- The `(status, progress)` views of one job along a trace of registry
snapshots. -/
def traceViews (tr : List Jobs) (jobId : String) : List (JobStatus × Nat) :=
  tr.filterMap (fun js => job_view js jobId)

/-- One step of the progress discipline between two successive
snapshots `a` then `b`: progress does not decrease while both statuses
are pre-terminal; a `completed` snapshot has progress 100; progress
strictly decreases only into `failed`; a `failed` snapshot has
progress 0. -/
def pairOk (a b : JobStatus × Nat) : Bool :=
  (if isTerminal a.1 = false ∧ isTerminal b.1 = false then decide (a.2 ≤ b.2) else true) &&
  (if b.1 = .completed then decide (b.2 = 100) else true) &&
  (if b.2 < a.2 then decide (b.1 = .failed) else true) &&
  (if b.1 = .failed then decide (b.2 = 0) else true)

/-- The progress discipline along a whole list of snapshots. -/
def chainOk : List (JobStatus × Nat) → Bool
  | a :: b :: rest => pairOk a b && chainOk (b :: rest)
  | _ => true

theorem getJob_singleton (jobId : String) (r : JobRec) :
    getJob [(jobId, r)] jobId = some r := by
  simp [getJob]

theorem update_singleton (jobId : String) (r : JobRec) (st : JobStatus)
    (f : JobRec → JobRec) :
    update_job_status [(jobId, r)] jobId st f = [(jobId, f { r with status := st })] := by
  simp [update_job_status]

/-- The record after the `progress=40` update inside
`_process_with_ffmpeg` (processor.py line 228). -/
def upd40 (r : JobRec) : JobRec := { r with status := .processing, progress := 40 }

/-- The record after the `progress=90` update inside
`_process_with_ffmpeg` (processor.py line 277). -/
def upd90 (r : JobRec) : JobRec := { r with status := .processing, progress := 90 }

theorem pwf_components (jobId : String) (r : JobRec) (fs : FS) (p : String)
    (env : FfmpegEnv) :
    (let out := process_with_ffmpeg [(jobId, r)] fs jobId p env
     ((∃ msg, out.2.2.2 = .error msg) ∧ out.1 = [(jobId, r)] ∧ out.2.1 = []) ∨
     ((∃ msg, out.2.2.2 = .error msg) ∧ out.1 = [(jobId, upd40 r)] ∧
        out.2.1 = [[(jobId, upd40 r)]]) ∨
     (out.2.2.2 = .ok () ∧ out.1 = [(jobId, upd90 (upd40 r))] ∧
        out.2.1 = [[(jobId, upd40 r)], [(jobId, upd90 (upd40 r))]])) := by
  unfold process_with_ffmpeg
  split
  · next e hp =>
    left
    exact ⟨⟨"FFmpeg processing error: " ++ e, rfl⟩, rfl, rfl⟩
  · next u hp =>
    rw [update_singleton]
    dsimp only
    split
    · next htime =>
      right; left
      exact ⟨⟨"FFmpeg processing error: Video processing timed out", rfl⟩,
        rfl, rfl⟩
    · next htime =>
      split
      · next hrc =>
        right; left
        refine ⟨⟨_, rfl⟩, rfl, rfl⟩
      · next hrc =>
        right; right
        rw [update_singleton]
        exact ⟨rfl, rfl, rfl⟩
theorem pwf_components_eq (jobId : String) (r : JobRec) (fs : FS) (p : String)
    (env : FfmpegEnv) (jobs4 : Jobs) (fftrace : List Jobs) (fs1 : FS)
    (res : Except String Unit)
    (heq : process_with_ffmpeg [(jobId, r)] fs jobId p env = (jobs4, fftrace, fs1, res)) :
    ((∃ msg, res = .error msg) ∧ jobs4 = [(jobId, r)] ∧ fftrace = []) ∨
    ((∃ msg, res = .error msg) ∧ jobs4 = [(jobId, upd40 r)] ∧
        fftrace = [[(jobId, upd40 r)]]) ∨
    (res = .ok () ∧ jobs4 = [(jobId, upd90 (upd40 r))] ∧
        fftrace = [[(jobId, upd40 r)], [(jobId, upd90 (upd40 r))]]) := by
  have h := pwf_components jobId r fs p env
  rw [heq] at h
  exact h

/-- Claim C7: along any single background-processing run of a freshly
created job, the `(status, progress)` snapshots satisfy the progress
discipline: `progress` stays in 0..100, never decreases between
successive snapshots while both are pre-terminal, is 100 on a
`completed` snapshot, strictly decreases only into `failed`, and is
reset to 0 there. -/
theorem C7_progress_monotone (jobId orig upname : String) (t : Nat)
    (lock : LockState) (fs : FS) (env : PvEnv) :
    (let out := process_video [(jobId, create_job_record jobId orig upname t)]
        lock fs jobId env
     chainOk (traceViews out.trace jobId) = true ∧
     (traceViews out.trace jobId).all (fun v => decide (v.2 ≤ 100)) = true) := by
  unfold process_video
  rw [getJob_singleton]
  split
  · next hacq =>
    exact Option.noConfusion hacq
  · next job hacq =>
    injection hacq with hjob
    subst hjob
    split
    · next lock1 hacq2 =>
      simp only [update_singleton, traceViews, List.filterMap, job_view,
        getJob_singleton, create_job_record, Option.map]
      decide
    · next lock1 hacq2 =>
      split
      · next c0 d0 hval =>
        simp only [update_singleton, traceViews, List.filterMap, job_view,
          getJob_singleton, create_job_record, Option.map]
        decide
      · next msg hval =>
        simp only [update_singleton, traceViews, List.filterMap, job_view,
          getJob_singleton, create_job_record, Option.map]
        decide
      · next info hval =>
        simp only [update_singleton]
        split
        · next jobs4 fftrace fs1 msg heqp =>
          rcases pwf_components_eq _ _ _ _ _ _ _ _ _ heqp with
            ⟨⟨m, hres⟩, hjobs, htr⟩ | ⟨⟨m, hres⟩, hjobs, htr⟩ | ⟨hres, hjobs, htr⟩
          · subst hjobs; subst htr
            simp only [update_singleton, traceViews, List.filterMap, job_view,
              getJob_singleton, create_job_record, Option.map, List.append,
              upd40, upd90]
            decide
          · subst hjobs; subst htr
            simp only [update_singleton, traceViews, List.filterMap, job_view,
              getJob_singleton, create_job_record, Option.map, List.append,
              upd40, upd90]
            decide
          · cases hres
        · next jobs4 fftrace fs1 u heqp =>
          rcases pwf_components_eq _ _ _ _ _ _ _ _ _ heqp with
            ⟨⟨m, hres⟩, hjobs, htr⟩ | ⟨⟨m, hres⟩, hjobs, htr⟩ | ⟨hres, hjobs, htr⟩
          · cases hres
          · cases hres
          · subst hjobs; subst htr
            split
            · simp only [update_singleton, traceViews, List.filterMap, job_view,
                getJob_singleton, create_job_record, Option.map, List.append,
                upd40, upd90]
              decide
            · simp only [update_singleton, traceViews, List.filterMap, job_view,
                getJob_singleton, create_job_record, Option.map, List.append,
                upd40, upd90]
              decide

/-! ## Claim theorems: system-wide slot/registry invariant (C6)

Observable states of the running service at the granularity of the
cooperative scheduler's suspension points: between two `await`s of a
background task no other coroutine runs, so each `Step` below is one
suspension-free block of `src/core/processor.py` / `src/api/endpoints.py`
code.  `pending` tracks job ids whose scheduled background task has not
started yet; `used` tracks every id ever handed out by `create_job`
(uuid4 tokens are never reused). -/

structure SysState where
  jobs : Jobs
  lock : LockState
  pending : List String
  used : List String

/-- The service state at startup: empty registry, unheld lock. -/
def initState : SysState :=
  { jobs := [], lock := ProcessingLock.init, pending := [], used := [] }

/-- The `is_currently_processing` flag computed per job by the status
endpoint (endpoints.py lines 85-89):
`processing_lock.get_current_job() == job_id`. -/
def is_currently_processing (s : SysState) (jobId : String) : Bool :=
  ProcessingLock.get_current_job s.lock == some jobId

/-- One observable atomic block of the running service. -/
inductive Step : SysState → SysState → Prop where
  /-- `POST /upload` (endpoints.py lines 14-63): after synchronous
  pre-validation, `create_job` inserts a fresh `created` record (fresh
  uuid, so `jobId` was never used) and schedules the background task. -/
  | create (s : SysState) (jobId orig upname : String) (t : Nat)
      (hfresh : jobId ∉ s.used) (hnew : getJob s.jobs jobId = none) :
      Step s ⟨(jobId, create_job_record jobId orig upname t) :: s.jobs, s.lock,
              jobId :: s.pending, jobId :: s.used⟩
  /-- `process_video` start, job deleted meanwhile (processor.py lines
  64-65): raises 404 without touching lock or registry. -/
  | pv_notfound (s : SysState) (jobId : String)
      (hp : jobId ∈ s.pending) (hj : getJob s.jobs jobId = none) :
      Step s ⟨s.jobs, s.lock, s.pending.erase jobId, s.used⟩
  /-- `process_video` start with the slot held by another run
  (processor.py lines 70-72): the job is marked `rejected` and 429 is
  raised; lock untouched. -/
  | pv_reject (s : SysState) (jobId : String)
      (hp : jobId ∈ s.pending) (hj : (getJob s.jobs jobId).isSome = true)
      (hl : s.lock.locked = true) :
      Step s ⟨update_job_status s.jobs jobId .rejected
                (fun r => { r with error := some "Another video is currently being processed" }),
              s.lock, s.pending.erase jobId, s.used⟩
  /-- `process_video` start with the slot free (processor.py lines
  70-76): acquire the lock and mark the job `validating`; the block ends
  at the validation `await`. -/
  | pv_begin (s : SysState) (jobId : String) (t : Nat)
      (hp : jobId ∈ s.pending) (hj : (getJob s.jobs jobId).isSome = true)
      (hl : s.lock.locked = false) :
      Step s ⟨update_job_status s.jobs jobId .validating
                (fun r => { r with started_at := some t }),
              (ProcessingLock.acquire s.lock jobId t).2, s.pending.erase jobId,
              s.used⟩
  /-- A mid-run registry update by the holder's own worker (processor.py
  lines 83, 89, 228, 277): status stays pre-terminal and the keyword
  updates never touch the status field. -/
  | pv_update (s : SysState) (jobId : String) (st : JobStatus) (f : JobRec → JobRec)
      (hhold : s.lock.current_job_id = some jobId)
      (hst : isTerminal st = false)
      (hf : ∀ r, (f r).status = r.status) :
      Step s ⟨update_job_status s.jobs jobId st f, s.lock, s.pending, s.used⟩
  /-- The `finally` release alone (processor.py lines 109-111), as when
  re-validation raises an `HTTPException` that is re-raised without a
  registry update. -/
  | pv_release (s : SysState) (jobId : String)
      (hhold : s.lock.current_job_id = some jobId) :
      Step s ⟨s.jobs, ProcessingLock.release s.lock, s.pending, s.used⟩
  /-- A failing run's suspension-free tail (processor.py lines 109-119):
  the `finally` release followed by the `failed` update, one observable
  block. -/
  | pv_fail (s : SysState) (jobId : String) (msg : String)
      (hhold : s.lock.current_job_id = some jobId) :
      Step s ⟨update_job_status s.jobs jobId .failed
                (fun r => { r with error := some msg, progress := 0 }),
              ProcessingLock.release s.lock, s.pending, s.used⟩
  /-- A completing run's suspension-free tail (processor.py lines
  95-111): the `completed` update followed by the `finally` release, one
  observable block. -/
  | pv_complete (s : SysState) (jobId : String) (t sz : Nat)
      (hhold : s.lock.current_job_id = some jobId) :
      Step s ⟨update_job_status s.jobs jobId .completed
                (fun r => { r with progress := 100, completed_at := some t,
                                   output_size := some sz }),
              ProcessingLock.release s.lock, s.pending, s.used⟩
  /-- `DELETE /job/{job_id}` (endpoints.py lines 175-202): refused for
  the slot holder, otherwise the record is removed. -/
  | del (s : SysState) (jobId : String)
      (hj : (getJob s.jobs jobId).isSome = true)
      (hnb : s.lock.current_job_id ≠ some jobId) :
      Step s ⟨s.jobs.filter (fun q => q.1 ≠ jobId), s.lock, s.pending, s.used⟩

/-- Reachable service states. -/
inductive Reach : SysState → Prop where
  | init : Reach initState
  | step {s t : SysState} : Reach s → Step s t → Reach t

theorem getJob_filter_ne (jobs : Jobs) (jobId other : String) (hne : other ≠ jobId) :
    getJob (jobs.filter (fun q => q.1 ≠ jobId)) other = getJob jobs other := by
  induction jobs with
  | nil => rfl
  | cons p rest ih =>
    by_cases h : p.1 = jobId
    · have h2 : (jobId == other) = false := by
        simp only [beq_eq_false_iff_ne, ne_eq]
        exact fun hc => hne hc.symm
      simp [h, getJob, List.find?, h2, List.filter_cons] at ih ⊢
      exact ih
    · by_cases h3 : (p.1 == other) = true
      · simp [h, getJob, List.find?, h3, List.filter_cons]
      · have h3f : (p.1 == other) = false := by simpa using h3
        simp [h, getJob, List.find?, h3f, List.filter_cons] at ih ⊢
        exact ih

/-- The inductive invariant: when unlocked the holder field is clear;
the holder, when set, names an existing pre-terminal job whose
background task has already started; pending ids are distinct and were
all handed out. -/
def SysInv (s : SysState) : Prop :=
  (s.lock.locked = false → s.lock.current_job_id = none) ∧
  (∀ h, s.lock.current_job_id = some h →
      (∃ r, getJob s.jobs h = some r ∧ isTerminal r.status = false) ∧
      h ∉ s.pending) ∧
  s.pending.Nodup ∧
  (∀ j, j ∈ s.pending → j ∈ s.used)

theorem inv_init : SysInv initState := by
  refine ⟨fun _ => rfl, ?_, List.nodup_nil, ?_⟩
  · intro h hh
    cases hh
  · intro j hj
    cases hj

theorem inv_step {s t : SysState} (hs : SysInv s) (st : Step s t) : SysInv t := by
  obtain ⟨hWF, hHold, hNodup, hSub⟩ := hs
  cases st with
  | create jobId orig upname t hfresh hnew =>
    refine ⟨hWF, ?_, ?_, ?_⟩
    · intro h hh
      obtain ⟨⟨r, hr, hterm⟩, hnp⟩ := hHold h hh
      have hne : h ≠ jobId := by
        intro he
        rw [he, hnew] at hr
        cases hr
      refine ⟨⟨r, ?_, hterm⟩, ?_⟩
      · have h2 : (jobId == h) = false := by
          simp
          exact fun hc => hne hc.symm
        simp only [getJob, List.find?, h2]
        exact hr
      · intro hmem
        rcases List.mem_cons.mp hmem with he | hmem2
        · exact hne he
        · exact hnp hmem2
    · refine List.nodup_cons.mpr ⟨?_, hNodup⟩
      intro hmem
      exact hfresh (hSub jobId hmem)
    · intro j hj
      rcases List.mem_cons.mp hj with he | hj2
      · exact List.mem_cons.mpr (Or.inl he)
      · exact List.mem_cons.mpr (Or.inr (hSub j hj2))
  | pv_notfound jobId hp hj =>
    refine ⟨hWF, ?_, hNodup.erase jobId, ?_⟩
    · intro h hh
      obtain ⟨hex, hnp⟩ := hHold h hh
      exact ⟨hex, fun hmem => hnp (List.mem_of_mem_erase hmem)⟩
    · intro j hj2
      exact hSub j (List.mem_of_mem_erase hj2)
  | pv_reject jobId hp hj hl =>
    refine ⟨hWF, ?_, hNodup.erase jobId, ?_⟩
    · intro h hh
      obtain ⟨⟨r, hr, hterm⟩, hnp⟩ := hHold h hh
      have hne : h ≠ jobId := fun he => hnp (he ▸ hp)
      refine ⟨⟨r, ?_, hterm⟩, fun hmem => hnp (List.mem_of_mem_erase hmem)⟩
      rw [getJob_update_ne _ _ _ _ _ hne]
      exact hr
    · intro j hj2
      exact hSub j (List.mem_of_mem_erase hj2)
  | pv_begin jobId t hp hj hl =>
    rw [ProcessingLock.acquire, if_neg (by simp [hl])]
    refine ⟨?_, ?_, hNodup.erase jobId, ?_⟩
    · intro hfalse
      cases hfalse
    · intro h hh
      simp only at hh
      injection hh with hh
      subst hh
      obtain ⟨r, hr⟩ := Option.isSome_iff_exists.mp hj
      refine ⟨⟨{ r with status := JobStatus.validating, started_at := some t },
        ?_, rfl⟩, ?_⟩
      · rw [getJob_update_self, hr]
        rfl
      · exact hNodup.not_mem_erase
    · intro j hj2
      exact hSub j (List.mem_of_mem_erase hj2)
  | pv_update jobId st f hhold hst hf =>
    refine ⟨hWF, ?_, hNodup, hSub⟩
    intro h hh
    obtain ⟨⟨r, hr, _⟩, hnp⟩ := hHold h hh
    have he : h = jobId := by
      rw [hhold] at hh
      injection hh with hh
      exact hh.symm
    subst he
    refine ⟨⟨f { r with status := st }, ?_, ?_⟩, hnp⟩
    · rw [getJob_update_self, hr]
      rfl
    · rw [hf]
      exact hst
  | pv_release jobId hhold =>
    rw [ProcessingLock.release]
    by_cases hl : s.lock.locked
    · rw [if_pos hl]
      refine ⟨fun _ => rfl, ?_, hNodup, hSub⟩
      intro h hh
      cases hh
    · rw [if_neg hl]
      exact ⟨hWF, hHold, hNodup, hSub⟩
  | pv_fail jobId msg hhold =>
    rw [ProcessingLock.release]
    by_cases hl : s.lock.locked
    · rw [if_pos hl]
      refine ⟨fun _ => rfl, ?_, hNodup, hSub⟩
      intro h hh
      cases hh
    · rw [if_neg hl]
      have hnone := hWF (by simpa using hl)
      rw [hnone] at hhold
      cases hhold
  | pv_complete jobId t sz hhold =>
    rw [ProcessingLock.release]
    by_cases hl : s.lock.locked
    · rw [if_pos hl]
      refine ⟨fun _ => rfl, ?_, hNodup, hSub⟩
      intro h hh
      cases hh
    · rw [if_neg hl]
      have hnone := hWF (by simpa using hl)
      rw [hnone] at hhold
      cases hhold
  | del jobId hj hnb =>
    refine ⟨hWF, ?_, hNodup, hSub⟩
    intro h hh
    obtain ⟨⟨r, hr, hterm⟩, hnp⟩ := hHold h hh
    have hne : h ≠ jobId := by
      intro he
      rw [he] at hh
      exact hnb hh
    refine ⟨⟨r, ?_, hterm⟩, hnp⟩
    rw [getJob_filter_ne _ _ _ hne]
    exact hr

theorem inv_reach (s : SysState) (h : Reach s) : SysInv s := by
  induction h with
  | init => exact inv_init
  | step _ hstep ih => exact inv_step ih hstep

/-- Claim C6: at every reachable observable state, at most one job
reports `is_currently_processing = true`, and whenever the slot's
holder field is non-null it names a job that exists in the registry and
whose status is pre-terminal (not completed, failed or rejected). -/
theorem C6_holder_invariant (s : SysState) (h : Reach s) :
    (∀ a b, is_currently_processing s a = true →
        is_currently_processing s b = true → a = b) ∧
    (∀ jobId, ProcessingLock.get_current_job s.lock = some jobId →
        ∃ r, getJob s.jobs jobId = some r ∧ isTerminal r.status = false) := by
  have hi := inv_reach s h
  constructor
  · intro a b ha hb
    simp only [is_currently_processing, beq_iff_eq] at ha hb
    rw [ha] at hb
    exact Option.some.injEq _ _ ▸ hb
  · intro jobId hj
    exact (hi.2.1 jobId hj).1

/-- Witness for C6: the concrete reachable state after one upload and
the start of its background run; its slot holder "j1" is a live
`validating` job. -/
theorem C6_holder_invariant_witness :
    ∃ r, getJob (update_job_status
        [("j1", create_job_record "j1" "v.mp4" "u_v.mp4" 0)]
        "j1" .validating (fun rec => { rec with started_at := some 3 })) "j1" =
      some r ∧ isTerminal r.status = false := by
  have h1 : Reach initState := Reach.init
  have h2 := Reach.step h1
    (Step.create initState "j1" "v.mp4" "u_v.mp4" 0 (by simp [initState]) rfl)
  have h3 := Reach.step h2
    (Step.pv_begin _ "j1" 3 (by simp) rfl rfl)
  exact (C6_holder_invariant _ h3).2 "j1" rfl

/-! ## Claim theorems: job deletion and file cleanup (C8) -/

/-- The storage directories `config.UPLOAD_DIR` and `config.OUTPUT_DIR`
as seen by `FileStorage.cleanup_temp_files`: the file names currently
present in each. -/
structure StoreFS where
  uploads : List String
  outputs : List String
deriving DecidableEq, Repr

/-- The result dictionary of `cleanup_temp_files` (storage.py lines
92-96); `errors` stays empty here because `delete_file` succeeds on
every file the glob just listed. -/
structure CleanupReport where
  upload_deleted : Bool
  output_deleted : Bool
deriving DecidableEq, Repr

/-- `FileStorage.cleanup_temp_files(job_id)` (storage.py lines 86-116):
glob `UPLOAD_DIR` for `f"{job_id}*"` (names starting with the job id)
and `OUTPUT_DIR` for `f"*{job_id}*"` (names containing the job id),
delete every match, and report per directory whether anything was
deleted. -/
def cleanup_temp_files (fs : StoreFS) (jobId : String) :
    StoreFS × CleanupReport :=
  let upMatches := fs.uploads.filter (fun n => nameStartsWith jobId n)
  let outMatches := fs.outputs.filter (fun n => nameHasSub jobId n)
  ({ uploads := fs.uploads.filter (fun n => !nameStartsWith jobId n),
     outputs := fs.outputs.filter (fun n => !nameHasSub jobId n) },
   { upload_deleted := !upMatches.isEmpty,
     output_deleted := !outMatches.isEmpty })

/-- `VideoProcessor.cleanup_job` (processor.py lines 285-296): run the
storage cleanup, then drop the record, reporting `job_removed`. -/
def cleanup_job (jobs : Jobs) (fs : StoreFS) (jobId : String) :
    Jobs × StoreFS × CleanupReport × Bool :=
  let res := cleanup_temp_files fs jobId
  if (getJob jobs jobId).isSome then
    (jobs.filter (fun q => q.1 ≠ jobId), res.1, res.2, true)
  else
    (jobs, res.1, res.2, false)

/-- Outcome of the `DELETE /job/{job_id}` endpoint. -/
inductive DeleteResult where
  | ok (rep : CleanupReport) (job_removed : Bool)
  | http (code : Nat) (detail : String)
deriving DecidableEq, Repr

/-- `delete_job` (endpoints.py lines 175-202): 404 for an unknown job;
refuse with a 400 when the job currently holds the processing lock;
otherwise clean up files and remove the record. -/
def delete_job (jobs : Jobs) (lock : LockState) (fs : StoreFS)
    (jobId : String) : Jobs × StoreFS × DeleteResult :=
  match getJob jobs jobId with
  | none => (jobs, fs, .http 404 "Job not found")
  | some _ =>
    if ProcessingLock.get_current_job lock == some jobId then
      (jobs, fs, .http 400 "Cannot delete job that is currently being processed")
    else
      let res := cleanup_job jobs fs jobId
      (res.1, res.2.1, .ok res.2.2.1 res.2.2.2)

/-- The concrete job of C8's failing input: job id "1a2b3c4d", upload
stored under the storage layer's own uuid token "e5f6a7b8" (storage.py
lines 15-20), output named from the upload name (lines 22-28). -/
def c8Job : JobRec :=
  { create_job_record "1a2b3c4d" "clip.mp4"
      (generate_unique_filename "e5f6a7b8" "clip.mp4") 0 with
      status := JobStatus.completed, progress := 100,
      output_filename := some (generate_output_filename
        (generate_unique_filename "e5f6a7b8" "clip.mp4")) }

/-- The on-disk artifacts of that job. -/
def c8FS : StoreFS :=
  { uploads := ["e5f6a7b8_clip.mp4"], outputs := ["e5f6a7b8_clip_speedup.mp4"] }

/-- Claim C8, evaluated at the failing input: the busy-slot refusal and
the not-found behaviour of a second delete hold, but the cleanup globs
key on the job id while both stored filenames carry the storage layer's
unrelated uuid, so deleting the job removes its record while BOTH of
its files survive and the report says no category was removed —
contradicting the code's own comment that the upload filename contains
the job id. -/
theorem C8_delete_misses_job_files :
    (let jobs : Jobs := [("1a2b3c4d", c8Job)]
     let heldBy : LockState :=
       { locked := true, current_job_id := some "1a2b3c4d",
         processing_start_time := some 1, is_processing := true }
     delete_job jobs heldBy c8FS "1a2b3c4d" =
        (jobs, c8FS, .http 400 "Cannot delete job that is currently being processed") ∧
     (let res := delete_job jobs ProcessingLock.init c8FS "1a2b3c4d"
      res.1 = [] ∧
      res.2.1 = c8FS ∧
      res.2.2 = .ok { upload_deleted := false, output_deleted := false } true ∧
      delete_job res.1 ProcessingLock.init res.2.1 "1a2b3c4d" =
        ([], c8FS, .http 404 "Job not found"))) := by
  decide

/-! ## Claim theorems: total file-size reporting (C10) -/

/-- One filesystem entry as seen by `Path.exists` / `Path.is_file` /
`Path.stat().st_size`. -/
structure StatEntry where
  path : String
  is_file : Bool
  size : Nat
deriving DecidableEq, Repr

/-- The filesystem as a list of stat entries. -/
abbrev StatFS := List StatEntry

/-- `file_path.exists()`. -/
def path_exists (fs : StatFS) (p : String) : Bool :=
  fs.any (fun e => e.path == p)

/-- `file_path.is_file()`. -/
def path_is_file (fs : StatFS) (p : String) : Bool :=
  fs.any (fun e => e.path == p && e.is_file)

/-- `file_path.stat().st_size` (0 for a path with no entry; never
reached in that case by `get_file_size`). -/
def stat_size (fs : StatFS) (p : String) : Nat :=
  ((fs.find? (fun e => e.path == p)).map (fun e => e.size)).getD 0

/-- `FileStorage.file_exists` (storage.py lines 63-66):
`file_path.exists() and file_path.is_file()`. -/
def file_exists (fs : StatFS) (p : String) : Bool :=
  path_exists fs p && path_is_file fs p

/-- `FileStorage.get_file_size` (storage.py lines 68-73): the stat size
when the path exists and is a regular file, else 0; total by
construction (no exception path). -/
def get_file_size (fs : StatFS) (p : String) : Nat :=
  if file_exists fs p then stat_size fs p else 0

/-- Claim C10: `get_file_size` is total: it returns the stat size
exactly when the path exists as a regular file and 0 otherwise, so a
missing artifact reports the same size as an existing empty file, and
every reported size is only bounded below by 0. -/
theorem C10_get_file_size_total (fs : StatFS) (p : String) :
    (file_exists fs p = true → get_file_size fs p = stat_size fs p) ∧
    (file_exists fs p = false → get_file_size fs p = 0) ∧
    (∀ (fs2 : StatFS) (q : String), file_exists fs p = false →
        file_exists fs2 q = true → stat_size fs2 q = 0 →
        get_file_size fs p = get_file_size fs2 q) := by
  refine ⟨?_, ?_, ?_⟩
  · intro h
    simp [get_file_size, h]
  · intro h
    simp [get_file_size, h]
  · intro fs2 q h h2 h0
    simp [get_file_size, h, h2, h0]

/-- The concrete filesystem for C10's witness: one 5-byte file, one
empty file. -/
def c10FS : StatFS :=
  [{ path := "outputs/a.mp4", is_file := true, size := 5 },
   { path := "outputs/empty.mp4", is_file := true, size := 0 }]

/-- Witness for C10 at a concrete filesystem: the stat size is reported
for an existing file, 0 for a missing path, and the missing path is
indistinguishable from the existing empty file. -/
theorem C10_get_file_size_total_witness :
    get_file_size c10FS "outputs/a.mp4" = 5 ∧
    get_file_size c10FS "missing.mp4" = 0 ∧
    get_file_size c10FS "missing.mp4" = get_file_size c10FS "outputs/empty.mp4" := by
  refine ⟨?_, ?_, ?_⟩
  · exact ((C10_get_file_size_total c10FS "outputs/a.mp4").1 rfl).trans rfl
  · exact (C10_get_file_size_total c10FS "missing.mp4").2.1 rfl
  · exact (C10_get_file_size_total c10FS "missing.mp4").2.2 c10FS
      "outputs/empty.mp4" rfl rfl rfl
